import Mathlib

/-!
Shallow embedding of the DocuMind RAG backend
(`src/backend/rag_pipeline.py`, `src/backend/document_processor.py`,
`src/backend/main.py`, `src/backend/database.py`) and proofs of the
specification claims about it.

Python strings are modelled as lists of Unicode code points (`PyStr`);
floating-point similarity scores and wall-clock durations are modelled as
rationals; external capabilities (OpenAI embeddings and chat completion,
the pgvector cosine-distance operator, `hashlib.md5`, `json.dumps`) are
modelled as explicit function parameters, since their implementations are
outside this repository.  Database tables and the Redis cache are modelled
as explicit state (`DB`) threaded through the operations.
-/

/-- A Python `str`, modelled as its sequence of Unicode code points. -/
abbrev PyStr := List Nat

/-- Embed a Lean string literal as a `PyStr` (code-point list). -/
def pystr (s : String) : PyStr := s.data.map Char.toNat

/-- Decimal rendering of a natural number, as used by Python f-string
interpolation of an integer field. -/
def natStr (n : Nat) : PyStr := pystr (toString n)

/-- Python `str.lower` on one code point (ASCII case mapping, which covers
every character the pipeline's fixed key prefixes and extensions use). -/
def lowerChar (c : Nat) : Nat := if 65 ≤ c ∧ c ≤ 90 then c + 32 else c

/-- Python `str.lower`. -/
def pyLower (s : PyStr) : PyStr := s.map lowerChar

/-- Python whitespace (space, tab, LF, VT, FF, CR) as stripped by `str.strip`. -/
def isSpaceChar (c : Nat) : Bool := decide (c = 32 ∨ (9 ≤ c ∧ c ≤ 13))

/-- Python `str.strip`: remove leading and trailing whitespace. -/
def pyStrip (s : PyStr) : PyStr :=
  ((s.dropWhile isSpaceChar).reverse.dropWhile isSpaceChar).reverse

/-- Python `sep.join(parts)`. -/
def joinSep (sep : PyStr) : List PyStr → PyStr
  | [] => []
  | [x] => x
  | x :: xs => x ++ sep ++ joinSep sep xs

/-- Extraction metadata dictionary (`page_count` / `paragraph_count` /
`file_type` keys produced by `DocumentProcessor.extract_text`). -/
structure PyMeta where
  page_count : Option Nat
  paragraph_count : Option Nat
  file_type : PyStr
deriving DecidableEq

/-- The empty metadata dictionary `{}`. -/
def emptyMeta : PyMeta := { page_count := none, paragraph_count := none, file_type := [] }

/-- Python `a or b` on two optional counts (`metadata.get(...) or
metadata.get(...)`): the first operand wins unless it is falsy
(`None` or `0`). -/
def pyOr (a b : Option Nat) : Option Nat :=
  match a with
  | some n => if n = 0 then b else some n
  | none => b

/-- Row of the `documents` table (`database.py`, class `Document`).
`upload_date` is wall-clock and is not modelled. -/
structure DocumentRow where
  id : Nat
  filename : PyStr
  file_type : PyStr
  content : PyStr
  file_size : Nat
  page_count : Option Nat
  processed : Bool
deriving DecidableEq

/-- Row of the `document_chunks` table (`database.py`, class
`DocumentChunk`).  The `Text` metadata column stores the rendering of the
metadata dictionary; it is modelled structurally. -/
structure ChunkRow where
  id : Nat
  document_id : Nat
  chunk_index : Nat
  content : PyStr
  embedding : List ℚ
  metadata : PyMeta
deriving DecidableEq

/-- In-memory `DocumentChunk` object as reconstructed by
`RAGPipeline.vector_search` from a result row (no embedding field). -/
structure DocumentChunk where
  id : Nat
  document_id : Nat
  chunk_index : Nat
  content : PyStr
  metadata : PyMeta
deriving DecidableEq

/-- One entry of the `sources` list built by
`RAGPipeline.retrieve_context`. -/
structure Source where
  document_id : Nat
  chunk_index : Nat
  similarity_score : ℚ
  content_preview : PyStr
deriving DecidableEq

/-- The answer bundle returned by `RAGPipeline.generate_answer`
(and cached in Redis as its JSON rendering). -/
structure Bundle where
  answer : PyStr
  sources : List Source
  response_time : ℚ
  cached : Bool
deriving DecidableEq

/-- Row of the `chat_history` table (`database.py`, class `ChatHistory`).
`timestamp` is wall-clock and is not modelled. -/
structure ChatRecord where
  session_id : PyStr
  query : PyStr
  response : PyStr
  sources : PyStr
  response_time : ℚ
deriving DecidableEq

/-- The Redis query cache: key to (deserialized bundle, TTL in seconds).
`setex` stores the JSON rendering of the bundle and `get` parses it back;
that round trip is the identity on the bundle, so the cache is modelled
as holding bundles directly. -/
abbrev Cache := List (PyStr × (Bundle × Nat))

/-- `redis_client.get`: newest binding of the key, `none` when absent. -/
def redis_get (c : Cache) (k : PyStr) : Option (Bundle × Nat) := c.lookup k

/-- `redis_client.setex`: bind the key, shadowing any older binding. -/
def redis_setex (c : Cache) (k : PyStr) (ttl : Nat) (v : Bundle) : Cache :=
  (k, (v, ttl)) :: c

/-- Combined mutable state: the three database tables plus the Redis
store (which may also hold unrelated keys written by other programs). -/
structure DB where
  documents : List DocumentRow
  chunks : List ChunkRow
  history : List ChatRecord
  cache : Cache
deriving DecidableEq

/-- External capabilities, exactly the remote calls the pipeline makes:
`OpenAIEmbeddings.embed_query`, `LLMChain.run(context, question)`, the
pgvector `<=>` cosine-distance operator, `hashlib.md5(..).hexdigest()`,
`json.dumps` of a sources list, whether Redis answered the startup ping,
and the `time.time() - start_time` reading at each of the three return
points of `generate_answer`. -/
structure Capabilities where
  embed : PyStr → List ℚ
  chain_run : PyStr → PyStr → PyStr
  dist : List ℚ → List ℚ → ℚ
  md5hex : PyStr → PyStr
  dumps : List Source → PyStr
  cache_enabled : Bool
  tHit : ℚ
  tNoCtx : ℚ
  tGen : ℚ

/-! ## `rag_pipeline.py` -/

/-- `RAGPipeline._get_cache_key`: `"rag:query:" + md5(query.lower().strip()).hexdigest()`. -/
def _get_cache_key (md5hex : PyStr → PyStr) (query : PyStr) : PyStr :=
  pystr "rag:query:" ++ md5hex (pyStrip (pyLower query))

/-- `RAGPipeline.vector_search`: the SQL query
`SELECT .., 1 - (embedding <=> q) AS similarity FROM document_chunks
WHERE 1 - (embedding <=> q) > threshold ORDER BY embedding <=> q LIMIT top_k`
followed by reconstruction of `DocumentChunk` objects.  Rows passing the
similarity floor are ordered by ascending cosine distance and capped at
`top_k`. -/
def vector_search (table : List ChunkRow) (dist : List ℚ → List ℚ → ℚ)
    (query_embedding : List ℚ) (top_k : Nat) (similarity_threshold : ℚ) :
    List (DocumentChunk × ℚ) :=
  let passing := table.filter fun r =>
    decide (similarity_threshold < 1 - dist r.embedding query_embedding)
  let ordered := passing.insertionSort fun a b =>
    dist a.embedding query_embedding ≤ dist b.embedding query_embedding
  (ordered.take top_k).map fun r =>
    ({ id := r.id, document_id := r.document_id, chunk_index := r.chunk_index,
       content := r.content, metadata := r.metadata },
     1 - dist r.embedding query_embedding)

/-- The `content_preview` field of a source entry:
`content[:200] + "..."` when the content exceeds 200 characters. -/
def contentPreview (content : PyStr) : PyStr :=
  if 200 < content.length then content.take 200 ++ pystr "..." else content

/-- One `sources` entry built by `RAGPipeline.retrieve_context`. -/
def mkSource (c : DocumentChunk) (score : ℚ) : Source :=
  { document_id := c.document_id, chunk_index := c.chunk_index,
    similarity_score := score, content_preview := contentPreview c.content }

/-- One context part built by `RAGPipeline.retrieve_context`:
`f"[Document {id}, Section {index}]\n{content}\n"`. -/
def contextPart (c : DocumentChunk) : PyStr :=
  pystr "[Document " ++ natStr c.document_id ++ pystr ", Section " ++
    natStr c.chunk_index ++ pystr "]\n" ++ c.content ++ pystr "\n"

/-- `RAGPipeline.retrieve_context`: embed the query, run the vector search
(the Python call leaves `similarity_threshold` at its default `0.7`), and
build the joined context string and the sources list. -/
def retrieve_context (cap : Capabilities) (chunks : List ChunkRow)
    (query : PyStr) (top_k : Nat) : PyStr × List Source :=
  let query_embedding := cap.embed query
  let results := vector_search chunks cap.dist query_embedding top_k (7/10)
  let context := joinSep (pystr "\n\n") (results.map fun p => contextPart p.1)
  let sources := results.map fun p => mkSource p.1 p.2
  (context, sources)

/-- The fixed fallback answer returned when retrieval yields no context. -/
def FALLBACK : PyStr :=
  pystr "I couldn't find any relevant information in the knowledge base to answer your question. Please try rephrasing or check if the relevant documents have been uploaded."

/-- The cache probe at the top of `RAGPipeline.generate_answer`:
performed only when `use_cache` is requested and Redis is available. -/
def cacheLookup (cap : Capabilities) (st : DB) (use_cache : Bool)
    (query : PyStr) : Option (Bundle × Nat) :=
  if use_cache && cap.cache_enabled then
    redis_get st.cache (_get_cache_key cap.md5hex query)
  else none

/-- `RAGPipeline.generate_answer`.  Returns the answer bundle, the state
after any history/cache writes, and the number of completion-capability
calls made.  The Python call sites of `retrieve_context` leave `top_k` at
its default `5`, and the cache write uses the fixed TTL `3600`. -/
def generate_answer (cap : Capabilities) (st : DB) (query session_id : PyStr)
    (use_cache : Bool) : Bundle × DB × Nat :=
  match cacheLookup cap st use_cache query with
  | some (b, _ttl) =>
      ({ b with cached := true, response_time := cap.tHit }, st, 0)
  | none =>
      let cs := retrieve_context cap st.chunks query 5
      if cs.1 = [] then
        ({ answer := FALLBACK, sources := [], response_time := cap.tNoCtx,
           cached := false }, st, 0)
      else
        let answer := cap.chain_run cs.1 query
        let result : Bundle :=
          { answer := pyStrip answer, sources := cs.2,
            response_time := cap.tGen, cached := false }
        let chat_entry : ChatRecord :=
          { session_id := session_id, query := query,
            response := pyStrip answer, sources := cap.dumps cs.2,
            response_time := cap.tGen }
        let st1 : DB := { st with history := st.history ++ [chat_entry] }
        let st2 : DB :=
          if cap.cache_enabled then
            { st1 with cache :=
                redis_setex st1.cache (_get_cache_key cap.md5hex query) 3600 result }
          else st1
        (result, st2, 1)

/-- `RAGPipeline.clear_cache`: when Redis is available, delete every key
matching the glob `"rag:query:*"`, i.e. every key starting with the
pipeline's namespace. -/
def clear_cache (cache_enabled : Bool) (c : Cache) : Cache :=
  if cache_enabled then
    c.filter fun kv => !((pystr "rag:query:").isPrefixOf kv.1)
  else c

/-! ## `document_processor.py` -/

/-- Modelled from the spec: `langchain`'s
`RecursiveCharacterTextSplitter.split_text` — called by
`DocumentProcessor.chunk_text` — is library code not under `src/`.
Following spec section 4.1, it splits long text into segments of a target
maximum length (`chunk_size`, default 1000) with adjacent segments
overlapping by a fixed number of characters (`chunk_overlap`, default
200); empty text yields an empty sequence; text no longer than the target
yields exactly one chunk; it never produces an empty-content chunk for
non-empty input.  The recursive preference for paragraph, sentence and
word boundaries only moves cut points and is abstracted by the hard
character cut; segmentation is driven by a fuel argument (the source
recursion terminates because each step consumes at least one character
whenever `chunk_overlap < chunk_size`). -/
def split_text (chunk_size chunk_overlap : Nat) : Nat → PyStr → List PyStr
  | _, [] => []
  | 0, text => [text]
  | fuel + 1, text =>
      if text.length ≤ chunk_size then [text]
      else
        text.take chunk_size ::
          split_text chunk_size chunk_overlap fuel
            (text.drop (chunk_size - chunk_overlap))

/-- One element of the list built by `DocumentProcessor.chunk_text`. -/
structure ChunkDoc where
  content : PyStr
  chunk_index : Nat
  metadata : PyMeta
deriving DecidableEq

/-- `DocumentProcessor.chunk_text`: split the text and enumerate the
pieces, pairing each with its position and the (defaulted) metadata. -/
def chunk_text (chunk_size chunk_overlap : Nat) (text : PyStr)
    (metadata : Option PyMeta) : List ChunkDoc :=
  let chunks := split_text chunk_size chunk_overlap text.length text
  chunks.enum.map fun p =>
    { content := p.2, chunk_index := p.1, metadata := metadata.getD emptyMeta }

/-- The final path component of a filename (`pathlib.PurePath.name`):
everything after the last `/` (code point 47). -/
def pathName (f : PyStr) : PyStr := (f.reverse.takeWhile fun c => !(c == 47)).reverse

/-- `pathlib.PurePath.suffix`: the extension of the final component,
namely `name[i:]` when the last `.` (code point 46) sits at an index `i`
with `0 < i < len(name) - 1`, and `""` otherwise. -/
def pathSuffix (f : PyStr) : PyStr :=
  let name := pathName f
  let rev := name.reverse
  let j := rev.findIdx fun c => c == 46
  if 0 < j ∧ j + 1 < name.length then (rev.take (j + 1)).reverse else []

/-- `DocumentProcessor.get_file_type`: lower-case the suffix and look it
up in the fixed extension table, defaulting to `"unknown"`. -/
def get_file_type (filename : PyStr) : PyStr :=
  let extension := pyLower (pathSuffix filename)
  if extension = pystr ".pdf" then pystr "pdf"
  else if extension = pystr ".docx" then pystr "docx"
  else if extension = pystr ".doc" then pystr "docx"
  else if extension = pystr ".xlsx" then pystr "xlsx"
  else if extension = pystr ".xls" then pystr "xlsx"
  else if extension = pystr ".txt" then pystr "txt"
  else pystr "unknown"

/-! ## `main.py` -/

/-- `upload_document`, up to background scheduling: validate the file type
from the filename and, when supported, persist a new `Document` row with
empty content and `processed=False`.  An `"unknown"` type is rejected with
HTTP 400 before any row is created.  The row id models the
auto-incremented primary key. -/
def upload_document (st : DB) (filename : PyStr) (file_size : Nat) :
    DB × Except PyStr DocumentRow :=
  let file_type := get_file_type filename
  if file_type = pystr "unknown" then
    (st, .error (pystr "Unsupported file type"))
  else
    let doc : DocumentRow :=
      { id := st.documents.length + 1, filename := filename,
        file_type := file_type, content := [], file_size := file_size,
        page_count := none, processed := false }
    ({ st with documents := st.documents ++ [doc] }, .ok doc)

/-- The fallible part of `process_document_background`: text extraction,
chunking and batch embedding.  Extraction and the embedding call are
performed by external collaborators (`pypdf`/`python-docx`/`openpyxl` and
the OpenAI embeddings endpoint) and are passed in as their outcome;
either may fail with an exception, modelled as `Except.error`. -/
def processing_steps (extract_text : Except PyStr (PyStr × PyMeta))
    (create_embeddings_batch : List PyStr → Except PyStr (List (List ℚ))) :
    Except PyStr ((PyStr × PyMeta) × List ChunkDoc × List (List ℚ)) := do
  let tm ← extract_text
  let chunks := chunk_text 1000 200 tm.1 (some tm.2)
  let embeddings ← create_embeddings_batch (chunks.map fun c => c.content)
  pure (tm, chunks, embeddings)

/-- The error handler of `process_document_background`: re-fetch the
document row by its (unique) primary key and set `processed=False`. -/
def mark_unprocessed (docs : List DocumentRow) (doc_id : Nat) : List DocumentRow :=
  docs.map fun d => if d.id == doc_id then { d with processed := false } else d

/-- `process_document_background`: run the fallible steps; on success
persist the chunk rows (with embeddings) and flip the document to
`processed=True` with a 1000-character content preview; on any exception
log the error and mark the document unprocessed (when its row exists).
The function always returns normally — the exception is consumed inside
the worker.  Returns the new state and the log. -/
def process_document_background (extract_text : Except PyStr (PyStr × PyMeta))
    (create_embeddings_batch : List PyStr → Except PyStr (List (List ℚ)))
    (st : DB) (doc_id : Nat) (log : List PyStr) : DB × List PyStr :=
  match processing_steps extract_text create_embeddings_batch with
  | .ok (tm, chunks, embeddings) =>
      let new_chunks := ((chunks.zip embeddings).enum).map fun p =>
        ({ id := st.chunks.length + p.1 + 1, document_id := doc_id,
           chunk_index := p.1, content := p.2.1.content,
           embedding := p.2.2, metadata := p.2.1.metadata } : ChunkRow)
      ({ st with
          chunks := st.chunks ++ new_chunks,
          documents := st.documents.map fun d =>
            if d.id == doc_id then
              { d with content := tm.1.take 1000,
                       page_count := pyOr tm.2.page_count tm.2.paragraph_count,
                       processed := true }
            else d },
       log)
  | .error _e =>
      let log1 := log ++ [pystr "Error processing document"]
      match st.documents.find? fun d => d.id == doc_id with
      | some _ => ({ st with documents := mark_unprocessed st.documents doc_id }, log1)
      | none => (st, log1)

/-- `query_documents` (the `/api/query` endpoint): forwards the query and
session id to `RAGPipeline.generate_answer` with caching on.  The
request's `top_k` field is accepted by the schema but not forwarded. -/
def query_documents (cap : Capabilities) (st : DB) (query session_id : PyStr)
    (top_k : Nat) : Bundle × DB × Nat :=
  generate_answer cap st query session_id true

/-- `delete_document` (the `/api/documents/{id}` DELETE endpoint): 404
when no row has the id; otherwise delete the document's chunk rows, delete
the document row (`id` is the primary key), and clear the pipeline's
query-cache namespace. -/
def delete_document (cache_enabled : Bool) (st : DB) (document_id : Nat) :
    DB × Except PyStr PyStr :=
  match st.documents.find? fun d => d.id == document_id with
  | none => (st, .error (pystr "Document not found"))
  | some doc =>
      let st1 : DB :=
        { st with
            chunks := st.chunks.filter fun c => !(c.document_id == document_id),
            documents := st.documents.filter fun d => !(d.id == doc.id) }
      let st2 : DB := { st1 with cache := clear_cache cache_enabled st1.cache }
      (st2, .ok (pystr "Document deleted successfully"))

/-! ## Helper lemmas: Python string normalization -/

/-- Leading-whitespace removal (the first half of `str.strip`). -/
def stripLead (s : PyStr) : PyStr := s.dropWhile isSpaceChar

/-- Trailing-whitespace removal (the second half of `str.strip`). -/
def stripTrail (s : PyStr) : PyStr := (s.reverse.dropWhile isSpaceChar).reverse

theorem pyStrip_eq (s : PyStr) : pyStrip s = stripTrail (stripLead s) := rfl

theorem lowerChar_idem (c : Nat) : lowerChar (lowerChar c) = lowerChar c := by
  unfold lowerChar
  split
  · rw [if_neg (by omega)]
  · rfl

theorem isSpaceChar_lowerChar (c : Nat) : isSpaceChar (lowerChar c) = isSpaceChar c := by
  unfold lowerChar isSpaceChar
  split
  · rename_i h
    rw [decide_eq_false (by omega), decide_eq_false (by omega)]
  · rfl

theorem pyLower_pyLower (s : PyStr) : pyLower (pyLower s) = pyLower s := by
  simp only [pyLower, List.map_map]
  congr 1
  funext c
  exact lowerChar_idem c

theorem stripLead_pyLower (s : PyStr) : stripLead (pyLower s) = pyLower (stripLead s) := by
  simp only [stripLead, pyLower, List.dropWhile_map]
  congr 2
  funext c
  exact isSpaceChar_lowerChar c

theorem stripTrail_pyLower (s : PyStr) : stripTrail (pyLower s) = pyLower (stripTrail s) := by
  have hp : (isSpaceChar ∘ lowerChar) = isSpaceChar := funext isSpaceChar_lowerChar
  simp only [stripTrail, pyLower, ← List.map_reverse, List.dropWhile_map, hp]

theorem pyStrip_pyLower (s : PyStr) : pyStrip (pyLower s) = pyLower (pyStrip s) := by
  rw [pyStrip_eq, pyStrip_eq, stripLead_pyLower, stripTrail_pyLower]

theorem stripLead_stripLead (s : PyStr) : stripLead (stripLead s) = stripLead s :=
  List.dropWhile_idempotent ..

theorem stripTrail_stripTrail (s : PyStr) : stripTrail (stripTrail s) = stripTrail s := by
  simp only [stripTrail, List.reverse_reverse, List.dropWhile_idempotent]

theorem stripLead_eq_self_of_cons {c : Nat} {t : PyStr} (h : stripLead (c :: t) = c :: t) :
    isSpaceChar c = false := by
  by_cases hc : isSpaceChar c
  · exfalso
    rw [stripLead, List.dropWhile_cons, if_pos hc] at h
    have := congrArg List.length h
    have hle : (t.dropWhile isSpaceChar).length ≤ t.length :=
      (List.dropWhile_suffix isSpaceChar).sublist.length_le
    simp only [List.length_cons] at this
    omega
  · exact Bool.of_not_eq_true hc

theorem stripLead_stripTrail (t : PyStr) (ht : stripLead t = t) :
    stripLead (stripTrail t) = stripTrail t := by
  have hsuf : List.Sublist (stripTrail t) t := by
    have h1 : t.reverse.dropWhile isSpaceChar <:+ t.reverse :=
      List.dropWhile_suffix isSpaceChar
    have h2 : (t.reverse.dropWhile isSpaceChar).reverse.reverse <:+ t.reverse := by
      rwa [List.reverse_reverse]
    exact ((List.reverse_suffix).mp h2).sublist
  have hpre : stripTrail t <+: t := by
    have h1 : t.reverse.dropWhile isSpaceChar <:+ t.reverse :=
      List.dropWhile_suffix isSpaceChar
    have h2 : (t.reverse.dropWhile isSpaceChar).reverse.reverse <:+ t.reverse := by
      rwa [List.reverse_reverse]
    exact (List.reverse_suffix).mp h2
  cases hst : stripTrail t with
  | nil => rfl
  | cons a v =>
      obtain ⟨u, hu⟩ := hpre
      rw [hst] at hu
      have hta : ∃ w, t = a :: w := ⟨v ++ u, by rw [← hu]; rfl⟩
      obtain ⟨w, hw⟩ := hta
      have hca : isSpaceChar a = false := by
        apply stripLead_eq_self_of_cons (t := w)
        rw [← hw]; exact ht
      rw [stripLead, List.dropWhile_cons, if_neg (by simp [hca])]

theorem pyStrip_pyStrip (s : PyStr) : pyStrip (pyStrip s) = pyStrip s := by
  rw [pyStrip_eq, pyStrip_eq]
  rw [stripLead_stripTrail (stripLead s) (stripLead_stripLead s), stripTrail_stripTrail]

/-! ## Helper lemmas: vector search -/

theorem vector_search_length_le (table : List ChunkRow)
    (dist : List ℚ → List ℚ → ℚ) (qe : List ℚ) (top_k : Nat) (thr : ℚ) :
    (vector_search table dist qe top_k thr).length ≤ top_k := by
  unfold vector_search
  simp only [List.length_map, List.length_take]
  exact min_le_left ..

theorem vector_search_score_gt (table : List ChunkRow)
    (dist : List ℚ → List ℚ → ℚ) (qe : List ℚ) (top_k : Nat) (thr : ℚ) :
    ∀ p ∈ vector_search table dist qe top_k thr, thr < p.2 := by
  unfold vector_search
  intro p hp
  simp only [List.mem_map] at hp
  obtain ⟨r, hr, hrp⟩ := hp
  have hr2 : r ∈ (table.filter fun r =>
      decide (thr < 1 - dist r.embedding qe)).insertionSort fun a b =>
        dist a.embedding qe ≤ dist b.embedding qe := by
    exact List.mem_of_mem_take hr
  have hr3 := (List.perm_insertionSort
      (fun a b => dist a.embedding qe ≤ dist b.embedding qe)
      (table.filter fun r => decide (thr < 1 - dist r.embedding qe))).mem_iff.mp hr2
  have hr4 := (List.mem_filter.mp hr3).2
  have hr5 : thr < 1 - dist r.embedding qe := of_decide_eq_true hr4
  rw [← hrp]
  exact hr5

theorem vector_search_scores_antitone (table : List ChunkRow)
    (dist : List ℚ → List ℚ → ℚ) (qe : List ℚ) (top_k : Nat) (thr : ℚ) :
    (vector_search table dist qe top_k thr).Pairwise fun p q => q.2 ≤ p.2 := by
  unfold vector_search
  rw [List.pairwise_map]
  have hsorted : ((table.filter fun r =>
      decide (thr < 1 - dist r.embedding qe)).insertionSort fun a b =>
        dist a.embedding qe ≤ dist b.embedding qe).Sorted fun a b =>
        dist a.embedding qe ≤ dist b.embedding qe := by
    haveI : IsTotal ChunkRow fun a b => dist a.embedding qe ≤ dist b.embedding qe :=
      ⟨fun a b => le_total ..⟩
    haveI : IsTrans ChunkRow fun a b => dist a.embedding qe ≤ dist b.embedding qe :=
      ⟨fun _ _ _ hab hbc => le_trans hab hbc⟩
    exact List.sorted_insertionSort ..
  have htake := hsorted.sublist (List.take_sublist top_k _)
  exact htake.imp fun hab => by dsimp only; linarith

/-! ## Helper lemmas: context assembly -/

theorem contextPart_ne_nil (c : DocumentChunk) : contextPart c ≠ [] := by
  have h : pystr "[Document " ≠ [] := by decide
  unfold contextPart
  exact List.append_ne_nil_of_left_ne_nil h _

theorem joinSep_cons_ne_nil (sep x : PyStr) (xs : List PyStr) (hx : x ≠ []) :
    joinSep sep (x :: xs) ≠ [] := by
  cases xs with
  | nil => simpa [joinSep] using hx
  | cons y ys => simp [joinSep, hx]

theorem retrieve_context_fst_eq_nil_iff (cap : Capabilities)
    (chunks : List ChunkRow) (q : PyStr) (k : Nat) :
    (retrieve_context cap chunks q k).1 = [] ↔
      vector_search chunks cap.dist (cap.embed q) k (7/10) = [] := by
  unfold retrieve_context
  cases h : vector_search chunks cap.dist (cap.embed q) k (7/10) with
  | nil => simp [h, joinSep]
  | cons r rs =>
      simp only [h, List.map_cons]
      constructor
      · intro hc
        exact absurd hc (joinSep_cons_ne_nil _ _ _ (contextPart_ne_nil r.1))
      · intro hc
        exact absurd hc (List.cons_ne_nil r rs)

theorem retrieve_context_snd (cap : Capabilities) (chunks : List ChunkRow)
    (q : PyStr) (k : Nat) :
    (retrieve_context cap chunks q k).2 =
      (vector_search chunks cap.dist (cap.embed q) k (7/10)).map
        fun p => mkSource p.1 p.2 := rfl

/-! ## The claims -/

/-- C1: for every index state, query vector, `top_k` and
`similarity_threshold`, `vector_search` returns at most `top_k` entries,
every returned similarity score is strictly greater than
`similarity_threshold`, and the scores are non-increasing across the
returned sequence. -/
theorem vector_search_contract (table : List ChunkRow)
    (dist : List ℚ → List ℚ → ℚ) (query_embedding : List ℚ)
    (top_k : Nat) (similarity_threshold : ℚ) :
    (vector_search table dist query_embedding top_k similarity_threshold).length ≤ top_k ∧
    (∀ p ∈ vector_search table dist query_embedding top_k similarity_threshold,
      similarity_threshold < p.2) ∧
    (vector_search table dist query_embedding top_k similarity_threshold).Pairwise
      (fun p q => q.2 ≤ p.2) :=
  ⟨vector_search_length_le table dist query_embedding top_k similarity_threshold,
   vector_search_score_gt table dist query_embedding top_k similarity_threshold,
   vector_search_scores_antitone table dist query_embedding top_k similarity_threshold⟩

/-- Concrete chunk row used by the witnesses below. -/
def rowA : ChunkRow :=
  { id := 1, document_id := 7, chunk_index := 0, content := pystr "alpha",
    embedding := [1], metadata := emptyMeta }

/-- Second concrete chunk row used by the witnesses below. -/
def rowB : ChunkRow :=
  { id := 2, document_id := 7, chunk_index := 1, content := pystr "beta",
    embedding := [2], metadata := emptyMeta }

/-- A degenerate distance capability: everything is at distance zero. -/
def distZero : List ℚ → List ℚ → ℚ := fun _ _ => 0

/-- Concrete search hit used by the C1 witness. -/
def hitA : DocumentChunk × ℚ :=
  ({ id := 1, document_id := 7, chunk_index := 0, content := pystr "alpha",
     metadata := emptyMeta }, 1)

/-- Witness for C1: the contract evaluated on a concrete two-row index. -/
theorem vector_search_contract_witness :
    (vector_search [rowA, rowB] distZero [] 5 (7/10)).length ≤ 5 ∧
    hitA ∈ vector_search [rowA, rowB] distZero [] 5 (7/10) ∧
    (7/10 : ℚ) < hitA.2 := by
  have hmem : hitA ∈ vector_search [rowA, rowB] distZero [] 5 (7/10) := by
    norm_num [vector_search, rowA, rowB, distZero, hitA,
      List.insertionSort, List.orderedInsert]
  exact ⟨(vector_search_contract [rowA, rowB] distZero [] 5 (7/10)).1, hmem,
         (vector_search_contract [rowA, rowB] distZero [] 5 (7/10)).2.1 hitA hmem⟩

/-- C5: for every query string, the derived cache key is unchanged by
first trimming surrounding whitespace and lowering the case
(`_get_cache_key q = _get_cache_key (lower (strip q))` for every digest
capability), so two queries differing only by letter case or by
leading/trailing whitespace address the same cache entry. -/
theorem cache_key_ignores_case_and_whitespace (md5hex : PyStr → PyStr) (q : PyStr) :
    _get_cache_key md5hex q = _get_cache_key md5hex (pyLower (pyStrip q)) := by
  unfold _get_cache_key
  simp only [pyLower_pyLower, pyStrip_pyLower, pyStrip_pyStrip]

/-- C2: when the cache probe misses and retrieval returns zero chunks
(including against an empty index), `generate_answer` returns the fixed
fallback bundle — the "not found in knowledge base" answer, empty sources,
`cached = false` — makes no completion call, and leaves the state (cache
and history included) unchanged. -/
theorem generate_answer_no_context (cap : Capabilities) (st : DB)
    (q sid : PyStr) (uc : Bool)
    (hmiss : cacheLookup cap st uc q = none)
    (hempty : vector_search st.chunks cap.dist (cap.embed q) 5 (7/10) = []) :
    generate_answer cap st q sid uc
      = ({ answer := FALLBACK, sources := [], response_time := cap.tNoCtx,
           cached := false }, st, 0) := by
  have hctx : (retrieve_context cap st.chunks q 5).1 = [] :=
    (retrieve_context_fst_eq_nil_iff cap st.chunks q 5).mpr hempty
  unfold generate_answer
  rw [hmiss]
  simp [hctx]

/-- Concrete capabilities used by the witnesses: embeddings are empty
vectors, everything is at distance zero, the completion capability
returns a fixed answer, the digest is a fixed tag, and Redis is up. -/
def capMiss : Capabilities :=
  { embed := fun _ => [], chain_run := fun _ _ => pystr "an answer",
    dist := distZero, md5hex := fun _ => pystr "k",
    dumps := fun _ => pystr "[]", cache_enabled := true,
    tHit := 1, tNoCtx := 2, tGen := 3 }

/-- The empty state: no documents, no chunks, no history, empty cache. -/
def stEmpty : DB := { documents := [], chunks := [], history := [], cache := [] }

/-- Witness for C2: a query against the empty corpus returns the fallback
bundle and leaves the state untouched. -/
theorem generate_answer_no_context_witness :
    generate_answer capMiss stEmpty (pystr "what is documind") (pystr "default") true
      = ({ answer := FALLBACK, sources := [], response_time := capMiss.tNoCtx,
           cached := false }, stEmpty, 0) :=
  generate_answer_no_context capMiss stEmpty (pystr "what is documind")
    (pystr "default") true rfl rfl

/-- C3: when the cache is enabled, the probe misses, and retrieval
returns at least one chunk, `generate_answer` appends exactly one history
record (session id, query, answer, serialized sources, response time),
writes the full bundle through to the cache under the fixed TTL 3600, and
returns the bundle with `cached = false`. -/
theorem generate_answer_miss_writes (cap : Capabilities) (st : DB) (q sid : PyStr)
    (hen : cap.cache_enabled = true)
    (hmiss : redis_get st.cache (_get_cache_key cap.md5hex q) = none)
    (hne : vector_search st.chunks cap.dist (cap.embed q) 5 (7/10) ≠ []) :
    ∃ result : Bundle,
      generate_answer cap st q sid true
        = (result,
           { st with
               history := st.history ++
                 [{ session_id := sid, query := q, response := result.answer,
                    sources := cap.dumps result.sources,
                    response_time := result.response_time }],
               cache := redis_setex st.cache (_get_cache_key cap.md5hex q) 3600 result },
           1)
      ∧ result.cached = false ∧ result.response_time = cap.tGen := by
  have hmiss' : cacheLookup cap st true q = none := by
    simp [cacheLookup, hen, hmiss]
  have hctx : ¬ (retrieve_context cap st.chunks q 5).1 = [] := by
    rw [retrieve_context_fst_eq_nil_iff]; exact hne
  refine ⟨{ answer := pyStrip (cap.chain_run (retrieve_context cap st.chunks q 5).1 q),
            sources := (retrieve_context cap st.chunks q 5).2,
            response_time := cap.tGen, cached := false }, ?_, rfl, rfl⟩
  unfold generate_answer
  rw [hmiss']
  simp only [if_neg hctx, hen, if_true]

/-- C4: on a cache hit, `generate_answer` returns the stored bundle with
its `cached` flag forced true and its `response_time` replaced by the
elapsed cache-lookup time, touching neither state nor the completion
capability. -/
theorem generate_answer_cache_hit (cap : Capabilities) (st : DB) (q sid : PyStr)
    (b : Bundle) (ttl : Nat)
    (hen : cap.cache_enabled = true)
    (hhit : redis_get st.cache (_get_cache_key cap.md5hex q) = some (b, ttl)) :
    generate_answer cap st q sid true
      = ({ b with cached := true, response_time := cap.tHit }, st, 0) := by
  have h : cacheLookup cap st true q = some (b, ttl) := by
    simp [cacheLookup, hen, hhit]
  unfold generate_answer
  rw [h]

/-- A one-chunk state used by the C3 witness. -/
def stOneChunk : DB := { documents := [], chunks := [rowA], history := [], cache := [] }

/-- Witness for C3: against a one-chunk index with an empty cache, the
returned bundle is uncached and exactly one completion call is made. -/
theorem generate_answer_miss_writes_witness :
    (generate_answer capMiss stOneChunk (pystr "q") (pystr "default") true).1.cached = false ∧
    (generate_answer capMiss stOneChunk (pystr "q") (pystr "default") true).2.2 = 1 ∧
    (generate_answer capMiss stOneChunk (pystr "q") (pystr "default") true).2.1.history.length = 1 := by
  obtain ⟨r, heq, hc, ht⟩ :=
    generate_answer_miss_writes capMiss stOneChunk (pystr "q") (pystr "default")
      rfl rfl
      (by norm_num [vector_search, rowA, distZero, stOneChunk, capMiss,
            List.insertionSort, List.orderedInsert])
  rw [heq]
  exact ⟨hc, rfl, rfl⟩

/-- A cached bundle used by the C4 witness. -/
def bundHit : Bundle :=
  { answer := pystr "a cached answer", sources := [], response_time := 9, cached := false }

/-- A state whose cache already holds `bundHit` under the key the
pipeline derives for any query via `capMiss`. -/
def stHit : DB :=
  { documents := [], chunks := [], history := [],
    cache := [(pystr "rag:query:" ++ pystr "k", (bundHit, 3600))] }

/-- Witness for C4: a concrete cache hit is returned with `cached = true`
and the lookup-time `response_time`, and the state is untouched. -/
theorem generate_answer_cache_hit_witness :
    generate_answer capMiss stHit (pystr "q") (pystr "default") true
      = ({ bundHit with cached := true, response_time := capMiss.tHit }, stHit, 0) :=
  generate_answer_cache_hit capMiss stHit (pystr "q") (pystr "default") bundHit 3600
    rfl rfl

/-- C6: deleting an existing document removes every chunk carrying its
document id and clears exactly the pipeline's `rag:query:` cache
namespace: every namespaced entry is removed and every entry outside the
namespace survives. -/
theorem delete_document_cascades (st : DB) (docid : Nat)
    (hex : ∃ d ∈ st.documents, d.id = docid) :
    (∀ c ∈ (delete_document true st docid).1.chunks, c.document_id ≠ docid) ∧
    (∀ kv ∈ (delete_document true st docid).1.cache,
        (pystr "rag:query:").isPrefixOf kv.1 = false) ∧
    (∀ kv ∈ st.cache, (pystr "rag:query:").isPrefixOf kv.1 = false →
        kv ∈ (delete_document true st docid).1.cache) := by
  obtain ⟨d0, hd0, hid⟩ := hex
  have hsome : (st.documents.find? fun d => d.id == docid).isSome := by
    rw [List.find?_isSome]
    exact ⟨d0, hd0, by simp [hid]⟩
  cases hfind : st.documents.find? fun d => d.id == docid with
  | none => rw [hfind] at hsome; simp at hsome
  | some doc =>
      unfold delete_document
      rw [hfind]
      refine ⟨?_, ?_, ?_⟩
      · intro c hc
        have := (List.mem_filter.mp hc).2
        simpa using this
      · intro kv hkv
        have hkv' : kv ∈ st.cache.filter fun kv =>
            !((pystr "rag:query:").isPrefixOf kv.1) := hkv
        have := (List.mem_filter.mp hkv').2
        simpa using this
      · intro kv hkv hout
        show kv ∈ st.cache.filter fun kv => !((pystr "rag:query:").isPrefixOf kv.1)
        exact List.mem_filter.mpr ⟨hkv, by simp [hout]⟩

/-- A processed document row used by the C6 and C9 witnesses. -/
def docJ : DocumentRow :=
  { id := 7, filename := pystr "a.txt", file_type := pystr "txt", content := [],
    file_size := 3, page_count := none, processed := true }

/-- A cache entry outside the pipeline's namespace. -/
def kvOther : PyStr × (Bundle × Nat) := (pystr "other:key", (bundHit, 3600))

/-- A state holding one document with one chunk, one namespaced cache
entry and one foreign cache entry. -/
def stDel : DB :=
  { documents := [docJ], chunks := [rowA], history := [],
    cache := [(pystr "rag:query:" ++ pystr "k", (bundHit, 3600)), kvOther] }

/-- Witness for C6: after deleting document 7, the foreign cache entry is
still present and the deleted document's chunk is gone. -/
theorem delete_document_cascades_witness :
    kvOther ∈ (delete_document true stDel 7).1.cache ∧
    ({ id := 1, document_id := 7, chunk_index := 0, content := pystr "alpha",
       embedding := [1], metadata := emptyMeta } : ChunkRow).document_id ≠ 8 := by
  have h := delete_document_cascades stDel 7
    ⟨docJ, List.mem_cons_self docJ [], rfl⟩
  refine ⟨h.2.2 kvOther ?_ rfl, by decide⟩
  exact List.mem_cons_of_mem _ (List.mem_cons_self kvOther [])

/-- A two-chunk state with an empty cache, both chunks relevant to any
query under `capMiss`. -/
def stTwoChunks : DB :=
  { documents := [], chunks := [rowA, rowB], history := [], cache := [] }

/-- Second concrete search hit (for `rowB`). -/
def hitB : DocumentChunk × ℚ :=
  ({ id := 2, document_id := 7, chunk_index := 1, content := pystr "beta",
     metadata := emptyMeta }, 1)

/-- C7 counterexample: with two chunks passing the similarity floor and
`top_k = 1` supplied in the query request, the returned bundle carries
two sources, so the supplied `top_k` does not bound the sources list. -/
theorem query_documents_top_k_counterexample :
    ¬ ((query_documents capMiss stTwoChunks (pystr "q") (pystr "default") 1).1.sources.length ≤ 1) := by
  have hres : vector_search stTwoChunks.chunks capMiss.dist
      (capMiss.embed (pystr "q")) 5 (7/10) = [hitA, hitB] := by
    norm_num [vector_search, stTwoChunks, capMiss, rowA, rowB, distZero,
      hitA, hitB, List.insertionSort, List.orderedInsert]
  have hctx : ¬ (retrieve_context capMiss stTwoChunks.chunks (pystr "q") 5).1 = [] := by
    rw [retrieve_context_fst_eq_nil_iff, hres]
    simp
  have hsrc : (query_documents capMiss stTwoChunks (pystr "q") (pystr "default") 1).1.sources
      = [hitA, hitB].map fun p => mkSource p.1 p.2 := by
    unfold query_documents generate_answer
    rw [show cacheLookup capMiss stTwoChunks true (pystr "q") = none from rfl]
    simp only [if_neg hctx]
    show (retrieve_context capMiss stTwoChunks.chunks (pystr "q") 5).2 = _
    rw [retrieve_context_snd, hres]
  rw [hsrc]
  simp

/-- C7 as amended: the request's `top_k` is accepted but not forwarded to
retrieval, so on a cache miss the sources list is bounded by the
pipeline's configured default `top_k = 5`, whatever `top_k` the request
supplies. -/
theorem query_documents_sources_le_five (cap : Capabilities) (st : DB)
    (q sid : PyStr) (k : Nat)
    (hmiss : cacheLookup cap st true q = none) :
    (query_documents cap st q sid k).1.sources.length ≤ 5 := by
  unfold query_documents generate_answer
  rw [hmiss]
  by_cases hc : (retrieve_context cap st.chunks q 5).1 = []
  · simp [hc]
  · simp only [if_neg hc]
    show ((retrieve_context cap st.chunks q 5).2).length ≤ 5
    rw [retrieve_context_snd, List.length_map]
    exact vector_search_length_le st.chunks cap.dist (cap.embed q) 5 (7/10)

/-- Witness for the amended C7 at the counterexample's own input. -/
theorem query_documents_sources_le_five_witness :
    (query_documents capMiss stTwoChunks (pystr "q") (pystr "default") 1).1.sources.length ≤ 5 :=
  query_documents_sources_le_five capMiss stTwoChunks (pystr "q") (pystr "default") 1 rfl

/-! ## Helper lemmas: chunking -/

theorem split_text_nil (cs co fuel : Nat) : split_text cs co fuel [] = [] := by
  cases fuel <;> rfl

theorem split_text_content_ne_nil (cs co : Nat) (hcs : 0 < cs) :
    ∀ (fuel : Nat) (text : PyStr), text ≠ [] →
      ∀ c ∈ split_text cs co fuel text, c ≠ [] := by
  intro fuel
  induction fuel with
  | zero =>
      intro text ht c hc
      cases text with
      | nil => exact absurd rfl ht
      | cons a t =>
          simp only [split_text, List.mem_singleton] at hc
          subst hc
          exact List.cons_ne_nil a t
  | succ n ih =>
      intro text ht c hc
      cases text with
      | nil => exact absurd rfl ht
      | cons a t =>
          simp only [split_text] at hc
          by_cases hlen : (a :: t).length ≤ cs
          · rw [if_pos hlen] at hc
            simp only [List.mem_singleton] at hc
            subst hc
            exact List.cons_ne_nil a t
          · rw [if_neg hlen] at hc
            rcases List.mem_cons.mp hc with h1 | h2
            · subst h1
              have : ((a :: t).take cs).length = cs := by
                rw [List.length_take]
                omega
              intro hnil
              rw [hnil] at this
              simp at this
              omega
            · refine ih ((a :: t).drop (cs - co)) ?_ c h2
              have hlt : cs - co < (a :: t).length := by
                have : cs ≤ (a :: t).length := by omega
                omega
              intro hnil
              have := congrArg List.length hnil
              rw [List.length_drop] at this
              simp only [List.length_nil] at this
              omega

theorem chunk_text_indices (cs co : Nat) (text : PyStr) (md : Option PyMeta) :
    ((chunk_text cs co text md).map fun c => c.chunk_index)
      = List.range (chunk_text cs co text md).length := by
  unfold chunk_text
  rw [List.map_map]
  have h : ((fun c : ChunkDoc => c.chunk_index) ∘ fun p : Nat × PyStr =>
      ({ content := p.2, chunk_index := p.1,
         metadata := md.getD emptyMeta } : ChunkDoc)) = Prod.fst := rfl
  rw [h, List.enum_map_fst, List.length_map, List.enum_length]

/-- C8: with the processor's configured chunk size 1000 and overlap 200,
`chunk_text` numbers its chunks contiguously from zero, never emits an
empty-content chunk for non-empty input, and yields the empty sequence
for empty input. -/
theorem chunk_text_contract (text : PyStr) (md : Option PyMeta) :
    ((chunk_text 1000 200 text md).map fun c => c.chunk_index)
        = List.range (chunk_text 1000 200 text md).length ∧
    (text ≠ [] → ∀ c ∈ chunk_text 1000 200 text md, c.content ≠ []) ∧
    (text = [] → chunk_text 1000 200 text md = []) := by
  refine ⟨chunk_text_indices 1000 200 text md, ?_, ?_⟩
  · intro ht c hc
    unfold chunk_text at hc
    simp only [List.mem_map] at hc
    obtain ⟨p, hp, hpc⟩ := hc
    have hp2 : p.2 ∈ split_text 1000 200 text.length text := by
      have := List.mem_map_of_mem Prod.snd hp
      rwa [List.enum_map_snd] at this
    have hne := split_text_content_ne_nil 1000 200 (by norm_num)
      text.length text ht p.2 hp2
    rw [← hpc]
    exact hne
  · intro ht
    subst ht
    unfold chunk_text
    rw [List.length_nil, split_text_nil]
    rfl

/-- Witness for C8 on the concrete two-character text `"ab"`. -/
theorem chunk_text_contract_witness :
    ((chunk_text 1000 200 (pystr "ab") none).map fun c => c.chunk_index)
        = List.range (chunk_text 1000 200 (pystr "ab") none).length ∧
    ({ content := pystr "ab", chunk_index := 0, metadata := emptyMeta } : ChunkDoc).content ≠ [] :=
  ⟨(chunk_text_contract (pystr "ab") none).1,
   (chunk_text_contract (pystr "ab") none).2.1 (by decide)
     { content := pystr "ab", chunk_index := 0, metadata := emptyMeta } (by decide)⟩

/-- C9: when extraction, chunking or embedding fails, the worker recovers
locally: it returns normally (the exception is consumed), logs the error,
and marks the (existing) document row `processed = false`. -/
theorem process_document_background_recovers
    (ext : Except PyStr (PyStr × PyMeta))
    (emb : List PyStr → Except PyStr (List (List ℚ)))
    (st : DB) (doc_id : Nat) (log : List PyStr) (e : PyStr)
    (hfail : processing_steps ext emb = .error e)
    (hdoc : ∃ d ∈ st.documents, d.id = doc_id) :
    process_document_background ext emb st doc_id log
      = ({ st with documents := mark_unprocessed st.documents doc_id },
         log ++ [pystr "Error processing document"])
    ∧ ∀ d ∈ mark_unprocessed st.documents doc_id, d.id = doc_id →
        d.processed = false := by
  obtain ⟨d0, hd0, hid⟩ := hdoc
  have hsome : (st.documents.find? fun d => d.id == doc_id).isSome := by
    rw [List.find?_isSome]
    exact ⟨d0, hd0, by simp [hid]⟩
  constructor
  · unfold process_document_background
    rw [hfail]
    cases hfind : st.documents.find? fun d => d.id == doc_id with
    | none => rw [hfind] at hsome; simp at hsome
    | some doc => rfl
  · intro d hd hdi
    unfold mark_unprocessed at hd
    simp only [List.mem_map] at hd
    obtain ⟨d', hd', hmap⟩ := hd
    by_cases h : (d'.id == doc_id) = true
    · rw [if_pos h] at hmap
      rw [← hmap]
    · rw [if_neg h] at hmap
      subst hmap
      exact absurd (by simp [hdi]) h

/-- A failing extraction outcome (e.g. an unreadable PDF body). -/
def extFail : Except PyStr (PyStr × PyMeta) := .error (pystr "boom")

/-- An embedding capability that always succeeds. -/
def embOk : List PyStr → Except PyStr (List (List ℚ)) := fun _ => .ok []

/-- Witness for C9: a concrete failing extraction marks document 7
unprocessed and appends one log line. -/
theorem process_document_background_recovers_witness :
    process_document_background extFail embOk stDel 7 []
      = ({ stDel with documents := mark_unprocessed stDel.documents 7 },
         [] ++ [pystr "Error processing document"]) ∧
    ({ docJ with processed := false } : DocumentRow).processed = false := by
  have h := process_document_background_recovers extFail embOk stDel 7 []
    (pystr "boom") rfl ⟨docJ, List.mem_cons_self docJ [], rfl⟩
  exact ⟨h.1, h.2 { docJ with processed := false } (by decide) (by decide)⟩

/-! ## Helper lemmas: filename suffix handling -/

theorem lowerChar_beq_low (c k : Nat) (hk : k < 65) :
    (lowerChar c == k) = (c == k) := by
  unfold lowerChar
  split
  · rename_i h
    rw [beq_eq_false_iff_ne.mpr (by omega), beq_eq_false_iff_ne.mpr (by omega)]
  · rfl

theorem findIdx_map (p : Nat → Bool) (f : Nat → Nat) (l : List Nat) :
    (l.map f).findIdx p = l.findIdx (p ∘ f) := by
  induction l with
  | nil => rfl
  | cons a t ih => simp [List.findIdx_cons, ih]

theorem pathName_pyLower (f : PyStr) : pathName (pyLower f) = pyLower (pathName f) := by
  have hp : ((fun c => !(c == 47)) ∘ lowerChar) = fun c => !(c == 47) := by
    funext c
    simp only [Function.comp_apply]
    rw [lowerChar_beq_low c 47 (by omega)]
  unfold pathName pyLower
  rw [← List.map_reverse, List.takeWhile_map, hp, List.map_reverse]

theorem pathSuffix_pyLower (f : PyStr) : pathSuffix (pyLower f) = pyLower (pathSuffix f) := by
  have hq : ((fun c => c == 46) ∘ lowerChar) = fun c : Nat => c == 46 := by
    funext c
    simp only [Function.comp_apply]
    exact lowerChar_beq_low c 46 (by omega)
  unfold pathSuffix
  rw [pathName_pyLower]
  set name := pathName f with hname
  show (if 0 < ((pyLower name).reverse.findIdx fun c => c == 46) ∧
          ((pyLower name).reverse.findIdx fun c => c == 46) + 1 < (pyLower name).length
        then (((pyLower name).reverse.take
          (((pyLower name).reverse.findIdx fun c => c == 46) + 1))).reverse
        else []) = pyLower
          (if 0 < (name.reverse.findIdx fun c => c == 46) ∧
              (name.reverse.findIdx fun c => c == 46) + 1 < name.length
           then ((name.reverse.take ((name.reverse.findIdx fun c => c == 46) + 1))).reverse
           else [])
  have hrev : (pyLower name).reverse = pyLower name.reverse := by
    unfold pyLower
    rw [List.map_reverse]
  have hidx : ((pyLower name).reverse.findIdx fun c => c == 46)
      = name.reverse.findIdx fun c => c == 46 := by
    rw [hrev]
    unfold pyLower
    rw [findIdx_map, hq]
  have hlen : (pyLower name).length = name.length := List.length_map ..
  rw [hidx, hrev, hlen]
  split
  · unfold pyLower
    rw [← List.map_take, List.map_reverse]
  · rfl

/-- C10: `get_file_type` reads the filename's extension
case-insensitively, maps the six known extensions onto the four type
tags (`.doc` aliased to `docx`, `.xls` aliased to `xlsx`), answers
`"unknown"` for every other extension, and an `"unknown"` file type makes
`upload_document` reject the upload with no `Document` row persisted. -/
theorem get_file_type_contract (f : PyStr) (st : DB) (file_size : Nat) :
    get_file_type f = get_file_type (pyLower f) ∧
    (pyLower (pathSuffix f) = pystr ".pdf" → get_file_type f = pystr "pdf") ∧
    (pyLower (pathSuffix f) = pystr ".docx" → get_file_type f = pystr "docx") ∧
    (pyLower (pathSuffix f) = pystr ".doc" → get_file_type f = pystr "docx") ∧
    (pyLower (pathSuffix f) = pystr ".xlsx" → get_file_type f = pystr "xlsx") ∧
    (pyLower (pathSuffix f) = pystr ".xls" → get_file_type f = pystr "xlsx") ∧
    (pyLower (pathSuffix f) = pystr ".txt" → get_file_type f = pystr "txt") ∧
    (pyLower (pathSuffix f) ∉ [pystr ".pdf", pystr ".docx", pystr ".doc",
        pystr ".xlsx", pystr ".xls", pystr ".txt"] →
      get_file_type f = pystr "unknown") ∧
    (get_file_type f = pystr "unknown" →
      upload_document st f file_size = (st, .error (pystr "Unsupported file type"))) := by
  refine ⟨?_, ?_, ?_, ?_, ?_, ?_, ?_, ?_, ?_⟩
  · unfold get_file_type
    rw [pathSuffix_pyLower, pyLower_pyLower]
  · intro h; simp [get_file_type, h, pystr]
  · intro h; simp [get_file_type, h, pystr]
  · intro h; simp [get_file_type, h, pystr]
  · intro h; simp [get_file_type, h, pystr]
  · intro h; simp [get_file_type, h, pystr]
  · intro h; simp [get_file_type, h, pystr]
  · intro h
    simp only [get_file_type]
    split_ifs with h1 h2 h3 h4 h5 h6
    · exact absurd (by simp [h1]) h
    · exact absurd (by simp [h2]) h
    · exact absurd (by simp [h3]) h
    · exact absurd (by simp [h4]) h
    · exact absurd (by simp [h5]) h
    · exact absurd (by simp [h6]) h
    · rfl
  · intro h
    unfold upload_document
    rw [h, if_pos rfl]

/-- Witness for C10: a concrete upper-case PDF filename maps to `pdf`,
and a concrete unsupported extension is rejected with no row persisted. -/
theorem get_file_type_contract_witness :
    get_file_type (pystr "Report.PDF") = pystr "pdf" ∧
    upload_document stEmpty (pystr "virus.exe") 10
      = (stEmpty, .error (pystr "Unsupported file type")) := by
  refine ⟨(get_file_type_contract (pystr "Report.PDF") stEmpty 0).2.1 (by decide), ?_⟩
  exact (get_file_type_contract (pystr "virus.exe") stEmpty 10).2.2.2.2.2.2.2.2
    ((get_file_type_contract (pystr "virus.exe") stEmpty 10).2.2.2.2.2.2.2.1 (by decide))
